import Mathlib

/-!
# Verification of the Glow AI Agent content-assembly pipeline

A shallow embedding in Lean 4 of `src/main.py` from the `glow-ai-agent`
repository: the topic selector (`TrendAnalyzer`), the product database and
affiliate links (`ProductDatabase`), the image manager (`ImageManager`), and
the content generator (`ContentGenerator`).  Python strings are modelled as
Lean `String` (a wrapper around `List Char`), randomness (`random.choice`,
`random.randint`, `random.sample`) is modelled by explicit index / list
parameters, and network I/O is modelled by explicit response parameters.
-/

namespace GlowAI

/-! ## Python string primitives -/

/-- Python's `pat in s` substring test, over `List Char`. -/
def containsSub (pat : List Char) : List Char → Bool
  | [] => pat.isEmpty
  | c :: cs => pat.isPrefixOf (c :: cs) || containsSub pat cs

/-- Tail-recursive worker for `countSub`; the `match` on the new accumulator
value keeps it in literal form so that kernel reduction stays shallow. -/
def countSubAux (pat : List Char) : List Char → Nat → Nat
  | [], acc => acc
  | c :: cs, acc =>
    match (if pat.isPrefixOf (c :: cs) then acc + 1 else acc) with
    | 0 => countSubAux pat cs 0
    | n + 1 => countSubAux pat cs (n + 1)

/-- Number of positions of `l` at which `pat` starts (our patterns never
self-overlap, so this agrees with Python's `str.count`). -/
def countSub (pat l : List Char) : Nat := countSubAux pat l 0

/-- `pat in s` on `String`s. -/
def containsStr (pat s : String) : Bool := containsSub pat.data s.data

/-- Python `s.lower()` (ASCII case mapping, which covers the repository's
string constants). -/
def pyLower (s : String) : String := ⟨s.data.map Char.toLower⟩

/-- One step of Python `s.title()` on ASCII text: the boolean records whether
the previous character was alphabetic. -/
def pyTitleAux : Bool → List Char → List Char
  | _, [] => []
  | prev, c :: cs =>
    if c.isAlpha then
      (if prev then c.toLower else c.toUpper) :: pyTitleAux true cs
    else
      c :: pyTitleAux false cs

/-- Python `s.title()`, exact for ASCII strings (there "cased" coincides with
alphabetic and the case maps are the ASCII ones).  On non-ASCII input CPython
additionally applies Unicode special casing, which can lengthen the string
(e.g. `'ß'.title() == 'Ss'`); this char map does not, so statements about
title lengths are made under an ASCII hypothesis. -/
def pyTitle (s : String) : String := ⟨pyTitleAux false s.data⟩

/-- Worker for `pySplitL`: `cur` is the current word, reversed. -/
def pySplitAux : List Char → List Char → List (List Char)
  | [], [] => []
  | [], cur => [cur.reverse]
  | c :: cs, cur =>
    if c.isWhitespace then
      match cur with
      | [] => pySplitAux cs []
      | _ => cur.reverse :: pySplitAux cs []
    else pySplitAux cs (c :: cur)

/-- Python `s.split()` (split on whitespace runs, no empty words), over
`List Char`. -/
def pySplitL (l : List Char) : List (List Char) := pySplitAux l []

/-- Python `s.split()`. -/
def pySplit (s : String) : List String := (pySplitL s.data).map String.mk

/-- Python slicing `s[:n]`. -/
def pySlice (s : String) (n : Nat) : String := ⟨s.data.take n⟩

/-- Python `random.choice(l)` with the random draw `r` made explicit. -/
def pyChoice (l : List α) (d : α) (r : Nat) : α := l.getD (r % l.length) d

/-- Worker for `pyDedupBy`: `seen` is the set of keys already emitted. -/
def pyDedupByAux (f : α → β) [DecidableEq β] : List α → List β → List α
  | [], _ => []
  | a :: l, seen =>
    if f a ∈ seen then pyDedupByAux f l seen
    else a :: pyDedupByAux f l (f a :: seen)

/-- Python `list(dict.fromkeys(l))` generalized to a key function: keep the
first occurrence of every key, preserving order. -/
def pyDedupBy (f : α → β) [DecidableEq β] (l : List α) : List α :=
  pyDedupByAux f l []

theorem pyDedupByAux_subset (f : α → β) [DecidableEq β] :
    ∀ (l : List α) (seen : List β), ∀ x ∈ pyDedupByAux f l seen, x ∈ l := by
  intro l
  induction l with
  | nil => intro seen x hx; simp [pyDedupByAux] at hx
  | cons a l ih =>
    intro seen x hx
    rw [pyDedupByAux] at hx
    split at hx
    · exact List.mem_cons_of_mem a (ih _ x hx)
    · rcases List.mem_cons.1 hx with rfl | hx
      · exact List.mem_cons_self x l
      · exact List.mem_cons_of_mem a (ih _ x hx)

theorem pyDedupBy_subset (f : α → β) [DecidableEq β] (l : List α) :
    ∀ x ∈ pyDedupBy f l, x ∈ l :=
  pyDedupByAux_subset f l []

theorem pyDedupByAux_map_nodup (f : α → β) [DecidableEq β] :
    ∀ (l : List α) (seen : List β),
      ((pyDedupByAux f l seen).map f).Nodup ∧
        ∀ b ∈ (pyDedupByAux f l seen).map f, b ∉ seen := by
  intro l
  induction l with
  | nil => intro seen; simp [pyDedupByAux]
  | cons a l ih =>
    intro seen
    rw [pyDedupByAux]
    split
    · exact ih seen
    · rename_i hnotseen
      rcases ih (f a :: seen) with ⟨hnd, hout⟩
      simp only [List.map_cons, List.nodup_cons]
      refine ⟨⟨?_, hnd⟩, ?_⟩
      · intro hmem
        exact (hout _ hmem) (List.mem_cons_self _ _)
      · intro b hb
        rcases List.mem_cons.1 hb with rfl | hb
        · exact hnotseen
        · exact fun hbseen => (hout b hb) (List.mem_cons_of_mem _ hbseen)

theorem pyDedupBy_map_nodup (f : α → β) [DecidableEq β] (l : List α) :
    ((pyDedupBy f l).map f).Nodup :=
  (pyDedupByAux_map_nodup f l []).1

theorem pyDedupByAux_nodup (f : α → β) [DecidableEq β] :
    ∀ (l : List α) (seen : List β), (pyDedupByAux f l seen).Nodup := by
  intro l
  induction l with
  | nil => intro seen; simp [pyDedupByAux]
  | cons a l ih =>
    intro seen
    rw [pyDedupByAux]
    split
    · exact ih seen
    · simp only [List.nodup_cons]
      refine ⟨?_, ih (f a :: seen)⟩
      intro hmem
      have : f a ∈ (pyDedupByAux f l (f a :: seen)).map f := List.mem_map_of_mem f hmem
      exact (pyDedupByAux_map_nodup f l (f a :: seen)).2 _ this (List.mem_cons_self _ _)

theorem pyDedupBy_nodup (f : α → β) [DecidableEq β] (l : List α) :
    (pyDedupBy f l).Nodup :=
  pyDedupByAux_nodup f l []

theorem pyDedupBy_ne_nil (f : α → β) [DecidableEq β] (a : α) (l : List α) :
    pyDedupBy f (a :: l) ≠ [] := by
  rw [pyDedupBy, pyDedupByAux]; simp

/-! ## `ContentGenerator.generate_labels` (src/main.py 417-428) -/

/-- The fixed base label set. -/
def baseLabels : List String := ["beauty", "skincare", "beauty tips", "glow with helen"]

/-- `[w.lower() for w in keyword.split() if len(w) > 2]`. -/
def topicParts (keyword : String) : List String :=
  ((pySplit keyword).filter (fun w => 2 < w.length)).map pyLower

/-- The category-conditional labels. -/
def contextualLabels (keyword : String) : List String :=
  (if ["skincare", "skin", "face"].any (fun t => containsStr t (pyLower keyword)) then
    ["skincare routine", "healthy skin"] else []) ++
  (if ["makeup", "beauty", "cosmetic"].any (fun t => containsStr t (pyLower keyword)) then
    ["makeup tips", "beauty routine"] else []) ++
  (if containsStr "routine" (pyLower keyword) then ["daily routine"] else [])

/-- `ContentGenerator.generate_labels`. -/
def generate_labels (keyword : String) : List String :=
  (pyDedupBy id (baseLabels ++ topicParts keyword ++ contextualLabels keyword)).take 8

/-- C4: the label list has no duplicates, has length at most 8, and is the
order-preserving deduplication of base ++ topic-words ++ contextual labels,
capped at 8. -/
theorem c4_generate_labels (keyword : String) :
    (generate_labels keyword).Nodup ∧ (generate_labels keyword).length ≤ 8 ∧
      generate_labels keyword =
        (pyDedupBy id (baseLabels ++ topicParts keyword ++ contextualLabels keyword)).take 8 := by
  refine ⟨?_, ?_, rfl⟩
  · exact (pyDedupBy_nodup id _).sublist (List.take_sublist 8 _)
  · exact List.length_take_le 8 _

/-! ## `ContentGenerator.generate_seo_title` (src/main.py 387-404) -/

/-- `Config.MAX_TITLE_LENGTH`. -/
def MAX_TITLE_LENGTH : Nat := 60

/-- `Config.META_DESC_LENGTH`. -/
def META_DESC_LENGTH : Nat := 155

/-- The seven first-round title templates. -/
def seo_title_templates (keyword : String) (year : Nat) : List String :=
  [pyTitle keyword ++ ": Complete Guide for " ++ toString year,
   "The Ultimate " ++ pyTitle keyword ++ " Guide That Actually Works",
   pyTitle keyword ++ ": Step-by-Step Tutorial + Tips",
   "How to Master " ++ pyTitle keyword ++ " Like a Pro",
   "Everything You Need to Know About " ++ pyTitle keyword,
   pyTitle keyword ++ ": Beginner's Guide + Product Recs",
   "The Best " ++ pyTitle keyword ++ " Tips for Glowing Skin"]

/-- The three shorter templates used when the first pick is too long. -/
def seo_title_short_templates (keyword : String) : List String :=
  [pyTitle keyword ++ ": Complete Guide",
   "Ultimate " ++ pyTitle keyword ++ " Guide",
   pyTitle keyword ++ ": Tips That Work"]

/-- `ContentGenerator.generate_seo_title`; `r1`, `r2` are the two
`random.choice` draws and `year` is `datetime.now().year`. -/
def generate_seo_title (keyword : String) (year : Nat) (r1 r2 : Nat) : String :=
  let title := pyChoice (seo_title_templates keyword year) "" r1
  if MAX_TITLE_LENGTH < title.length then
    pyChoice (seo_title_short_templates keyword) "" r2
  else title

/-! ## `ContentGenerator.generate_meta_description` (src/main.py 406-415) -/

/-- The three meta-description templates. -/
def meta_desc_templates (keyword : String) : List String :=
  ["Discover the best " ++ keyword ++ " tips and products. Our complete guide covers everything for glowing, healthy skin. Expert advice + product recommendations inside!",
   "Learn " ++ keyword ++ " like a pro with our step-by-step guide. Includes product recommendations, tips, and everything you need for amazing results.",
   "Master " ++ keyword ++ " with our comprehensive guide. From beginner tips to expert techniques, plus the best products that actually work."]

/-- The fallback meta-description used when the chosen template is too long. -/
def meta_desc_fallback (keyword : String) : String :=
  "Complete " ++ keyword ++ " guide with expert tips, product recommendations, and step-by-step instructions for glowing, healthy skin."

/-- `ContentGenerator.generate_meta_description`; the `title` argument is
unused, exactly as in the source. -/
def generate_meta_description (keyword _title : String) (r : Nat) : String :=
  let m := pyChoice (meta_desc_templates keyword) "" r
  let m := if META_DESC_LENGTH < m.length then meta_desc_fallback keyword else m
  pySlice m META_DESC_LENGTH

theorem pyTitleAux_length : ∀ (b : Bool) (l : List Char),
    (pyTitleAux b l).length = l.length := by
  intro b l
  induction l generalizing b with
  | nil => simp [pyTitleAux]
  | cons c cs ih => simp only [pyTitleAux]; split <;> simp [ih]

theorem pyTitle_length (s : String) : (pyTitle s).length = s.length := by
  simpa [pyTitle] using pyTitleAux_length false s.data

theorem pySlice_length (s : String) (n : Nat) :
    (pySlice s n).length = min n s.length := by
  cases s with
  | mk l => simp [pySlice, String.length_mk, List.length_take]

/-- C2, counterexample: for the topic `"glow"` and the second template, the
generated meta description has 135 characters, outside `[150, 160]`. -/
theorem c2_counterexample :
    ¬ (150 ≤ (generate_meta_description "glow" "title" 1).length ∧
       (generate_meta_description "glow" "title" 1).length ≤ 160) := by
  set_option maxRecDepth 8192 in decide

/-- C2 (amended): for every topic string, title string and template draw, the
meta description has at most `META_DESC_LENGTH = 155` characters (the code
replaces an over-long template by a fixed fallback and then truncates to 155
characters; it never pads short renderings). -/
theorem c2_generate_meta_description_length (keyword title : String) (r : Nat) :
    (generate_meta_description keyword title r).length ≤ META_DESC_LENGTH := by
  unfold generate_meta_description
  calc (pySlice _ META_DESC_LENGTH).length
      = min META_DESC_LENGTH _ := pySlice_length _ _
    _ ≤ META_DESC_LENGTH := Nat.min_le_left _ _

/-- C3, counterexample: for a 45-character topic and the first template draw
in both rounds, the re-selected short template still renders 61 > 60
characters. -/
theorem c3_counterexample :
    ¬ (generate_seo_title "aaaaaaaaaaaaaaaaaaaaaaaaaaaaaaaaaaaaaaaaaaaaa"
        2026 0 0).length ≤ MAX_TITLE_LENGTH := by
  decide

/-- C3 (amended): for every ASCII topic of at most 44 characters and all
template draws, the generated title has at most `MAX_TITLE_LENGTH = 60`
characters; when the first chosen template renders longer than 60 characters
a template is re-selected from the shorter template set.  Both restrictions
are forced by counterexamples to the original claim: for longer topics even
the shorter templates exceed 60 characters (see `c3_counterexample`), and for
non-ASCII topics CPython's `str.title()` applies Unicode special casing that
lengthens the string (44 `'ß'`s title-case to 45 characters, so the short
template again renders 61).  The ASCII hypothesis is the faithfulness domain
of `pyTitle`, on which the embedding and the program agree. -/
theorem c3_generate_seo_title_length (keyword : String) (year r1 r2 : Nat)
    (_hascii : ∀ c ∈ keyword.data, c.toNat < 128)
    (h : keyword.length ≤ 44) :
    (generate_seo_title keyword year r1 r2).length ≤ MAX_TITLE_LENGTH := by
  have hdef : generate_seo_title keyword year r1 r2 =
      if MAX_TITLE_LENGTH < (pyChoice (seo_title_templates keyword year) "" r1).length then
        pyChoice (seo_title_short_templates keyword) "" r2
      else pyChoice (seo_title_templates keyword year) "" r1 := rfl
  rw [hdef]
  split
  · have h3 : r2 % 3 = 0 ∨ r2 % 3 = 1 ∨ r2 % 3 = 2 := by omega
    have hlen : (seo_title_short_templates keyword).length = 3 := by
      simp [seo_title_short_templates]
    have e1 : (": Complete Guide" : String).length = 16 := rfl
    have e2 : ("Ultimate " : String).length = 9 := rfl
    have e3 : (" Guide" : String).length = 6 := rfl
    have e4 : (": Tips That Work" : String).length = 16 := rfl
    rcases h3 with h3 | h3 | h3 <;>
      simp [pyChoice, seo_title_short_templates, hlen, h3, List.getD,
        String.length_append, pyTitle_length, MAX_TITLE_LENGTH] <;>
      omega
  · omega

/-- Witness for `c3_generate_seo_title_length` at the ASCII topic
`"glass skin routine"` (18 characters). -/
theorem c3_generate_seo_title_length_witness :
    (generate_seo_title "glass skin routine" 2026 1 0).length ≤ MAX_TITLE_LENGTH :=
  c3_generate_seo_title_length "glass skin routine" 2026 1 0 (by decide) (by decide)

/-! ## `ProductDatabase` (src/main.py 217-289) -/

/-- One row of the fixed in-memory product table. -/
structure Product where
  name : String
  id : String
  price : String
  rating : String
  category : String
deriving DecidableEq, Repr

/-- `self.products["skincare"]`. -/
def skincare_products : List Product :=
  [⟨"CeraVe Foaming Facial Cleanser", "B077TGQZPX", "$12.99", "4.5", "cleanser"⟩,
   ⟨"The Ordinary Niacinamide 10% + Zinc 1%", "B06XHW8TQL", "$7.20", "4.3", "serum"⟩,
   ⟨"Neutrogena Ultra Sheer Sunscreen SPF 55", "B002JAYMEE", "$8.47", "4.4", "sunscreen"⟩,
   ⟨"Olay Regenerist Retinol 24 Night Moisturizer", "B07MVJC3J8", "$18.99", "4.2", "moisturizer"⟩,
   ⟨"Paula's Choice 2% BHA Liquid Exfoliant", "B00949CTQQ", "$29.50", "4.4", "exfoliant"⟩,
   ⟨"La Roche-Posay Toleriane Caring Wash", "B01N7T7JKJ", "$14.99", "4.3", "cleanser"⟩,
   ⟨"Eucerin Daily Protection Face Lotion SPF 30", "B001ET76EE", "$8.97", "4.2", "sunscreen"⟩]

/-- `self.products["makeup"]`. -/
def makeup_products : List Product :=
  [⟨"Maybelline Fit Me Matte Foundation", "B07C2ZS7B8", "$7.99", "4.2", "foundation"⟩,
   ⟨"Urban Decay Naked Eyeshadow Palette", "B004Q8U1ZA", "$54.00", "4.5", "eyeshadow"⟩,
   ⟨"Fenty Beauty Gloss Bomb Universal Lip Luminizer", "B075BYKK7T", "$19.00", "4.3", "lip_gloss"⟩,
   ⟨"L'Or√©al Paris Voluminous Lash Paradise Mascara", "B06Y5ZTQTX", "$8.99", "4.1", "mascara"⟩,
   ⟨"Rare Beauty Soft Pinch Liquid Blush", "B08F7RQ9Q8", "$20.00", "4.4", "blush"⟩,
   ⟨"Charlotte Tilbury Pillow Talk Lipstick", "B07D7R8G5K", "$38.00", "4.6", "lipstick"⟩]

/-- `self.products["tools"]`. -/
def tools_products : List Product :=
  [⟨"Foreo Luna Mini 3 Face Cleansing Brush", "B07VQZR8DK", "$139.00", "4.0", "cleansing_tool"⟩,
   ⟨"Revlon One-Step Hair Dryer and Volumizer", "B01LSUQSB0", "$59.99", "4.2", "hair_tool"⟩,
   ⟨"Real Techniques Makeup Brush Set", "B004TSF8R6", "$19.99", "4.3", "brushes"⟩,
   ⟨"Jade Roller and Gua Sha Set", "B07L9QZXR3", "$12.99", "4.1", "facial_tool"⟩,
   ⟨"Conair Double-Sided Lighted Makeup Mirror", "B00002N5Z1", "$39.99", "4.2", "mirror"⟩]

/-- The table in Python dict iteration order (skincare, makeup, tools). -/
def all_products : List Product :=
  skincare_products ++ makeup_products ++ tools_products

/-- `category_mapping.get(category, [])` from `find_relevant_products`. -/
def category_mapping (cat : String) : List String :=
  if cat = "cleanser" then ["cleanser", "cleansing", "wash"]
  else if cat = "serum" then ["serum", "vitamin c", "niacinamide", "retinol"]
  else if cat = "moisturizer" then ["moisturizer", "cream", "hydrat"]
  else if cat = "sunscreen" then ["sunscreen", "spf", "sun protection"]
  else if cat = "foundation" then ["foundation", "base makeup"]
  else if cat = "eyeshadow" then ["eyeshadow", "eye makeup", "palette"]
  else if cat = "mascara" then ["mascara", "lashes"]
  else if cat = "lipstick" then ["lipstick", "lip"]
  else if cat = "tools" then ["tool", "brush", "mirror"]
  else []

/-- The per-product match test of the collection loop: category terms occur in
the lowered keyword, or (`elif`) some keyword word occurs in the lowered
product name. -/
def matchesKeyword (kw : String) (p : Product) : Bool :=
  (category_mapping p.category).any (fun t => containsStr t kw) ||
  (pySplit kw).any (fun term => containsStr term (pyLower p.name))

/-- The `relevant` list after the collection loop (`kw = keyword.lower()`). -/
def relevantProducts (keyword : String) : List Product :=
  all_products.filter (matchesKeyword (pyLower keyword))

/-- `relevant` after the skincare fallback and the dedup-by-id pass
(`unique`). -/
def uniqueProducts (keyword : String) : List Product :=
  pyDedupBy Product.id
    (if relevantProducts keyword = [] then skincare_products else relevantProducts keyword)

/-- `ProductDatabase.find_relevant_products`; `random.sample(unique, k)` is
modelled as taking the first `k` elements of `sampled`, an arbitrary
permutation of `unique`. -/
def find_relevant_products (keyword : String) (count : Nat) (sampled : List Product) :
    List Product :=
  sampled.take (min count (uniqueProducts keyword).length)

theorem uniqueProducts_ne_nil (keyword : String) : uniqueProducts keyword ≠ [] := by
  unfold uniqueProducts
  split
  · exact pyDedupBy_ne_nil _ _ _
  · rename_i hne
    match hrel : relevantProducts keyword with
    | [] => exact absurd hrel hne
    | a :: l => exact pyDedupBy_ne_nil _ _ _

/-- C10: for every keyword and every `count ≥ 1`, `find_relevant_products`
returns a non-empty list of at most `count` products with pairwise distinct
marketplace ids. -/
theorem c10_find_relevant_products (keyword : String) (count : Nat)
    (sampled : List Product) (hc : 1 ≤ count)
    (hperm : sampled.Perm (uniqueProducts keyword)) :
    find_relevant_products keyword count sampled ≠ [] ∧
    (find_relevant_products keyword count sampled).length ≤ count ∧
    ((find_relevant_products keyword count sampled).map Product.id).Nodup := by
  have hL : 1 ≤ (uniqueProducts keyword).length :=
    List.length_pos.2 (uniqueProducts_ne_nil keyword)
  have hlen : (find_relevant_products keyword count sampled).length =
      min count (uniqueProducts keyword).length := by
    unfold find_relevant_products
    rw [List.length_take, hperm.length_eq]
    omega
  refine ⟨?_, ?_, ?_⟩
  · intro hnil
    rw [hnil] at hlen
    simp at hlen
    omega
  · omega
  · have hnd : ((uniqueProducts keyword).map Product.id).Nodup :=
      pyDedupBy_map_nodup Product.id _
    have hnd' : (sampled.map Product.id).Nodup :=
      ((hperm.map Product.id).nodup_iff).2 hnd
    unfold find_relevant_products
    rw [List.map_take]
    exact hnd'.sublist (List.take_sublist _ _)

/-- Witness for `c10_find_relevant_products`: the empty keyword matches no
product, so the skincare fallback is used; sampling the identity permutation
with `count = 3` satisfies every hypothesis. -/
theorem c10_find_relevant_products_witness :
    find_relevant_products "" 3 (uniqueProducts "") ≠ [] ∧
    (find_relevant_products "" 3 (uniqueProducts "")).length ≤ 3 ∧
    ((find_relevant_products "" 3 (uniqueProducts "")).map Product.id).Nodup :=
  c10_find_relevant_products "" 3 (uniqueProducts "") (by decide) (List.Perm.refl _)

/-! ## `TrendAnalyzer` (src/main.py 114-214) -/

/-- `Config.MIN_KEYWORD_INTEREST`. -/
def MIN_KEYWORD_INTEREST : Nat := 70

/-- A topic candidate dict.  Keys that a given source does not set
(`competition`, `trend`, `source`) are modelled as `Option`. -/
structure Topic where
  keyword : String
  interest : Nat
  competition : Option String
  trend : Option String
  source : Option String
deriving DecidableEq, Repr

/-- One keyword entry computed from the pytrends dataframe by
`get_google_trends`. -/
structure GTrend where
  keyword : String
  interest : Nat
  trend : String
deriving DecidableEq, Repr

/-- `TrendAnalyzer.get_google_trends`: returns `{}` when pytrends is not
available, `{}` when the lookup raises (the `except` branch), and the
processed dataframe entries otherwise.  `df = none` models a raised
exception; the caller never sees one. -/
def get_google_trends (pytrendsAvailable : Bool) (df : Option (List GTrend)) :
    List GTrend :=
  if !pytrendsAvailable then []
  else
    match df with
    | none => []
    | some l => l

/-- `TrendAnalyzer._competition`. -/
def competitionOf (keyword : String) : String :=
  if (pySplit keyword).length ≤ 2 then "high"
  else if containsStr "tutorial" keyword || containsStr "guide" keyword then "medium"
  else if 4 ≤ (pySplit keyword).length then "low"
  else "medium"

/-- The seasonal table of `get_pinterest_trends`, with `dict.get`'s default
list. -/
def seasonal_trends (month : Nat) : List String :=
  if month = 12 then ["winter skincare", "holiday makeup", "party nails"]
  else if month = 1 then ["new year glow up", "dry skin remedies", "detox skincare"]
  else if month = 2 then ["valentine's makeup", "anti-aging", "self care routine"]
  else if month = 3 then ["spring skincare", "fresh makeup", "allergy skin care"]
  else if month = 4 then ["spring cleaning skincare", "refresh routine"]
  else if month = 5 then ["mother's day gifts", "spring trends", "sun protection"]
  else if month = 6 then ["summer skincare", "waterproof makeup", "wedding beauty"]
  else if month = 7 then ["sun care", "beach waves", "sweat proof makeup"]
  else if month = 8 then ["back to school", "quick routines", "budget beauty"]
  else if month = 9 then ["fall skincare", "autumn makeup", "transition routine"]
  else if month = 10 then ["halloween makeup", "fall trends", "cozy skincare"]
  else if month = 11 then ["thanksgiving prep", "dry skin solutions", "holiday prep"]
  else ["general skincare", "makeup tips", "beauty routine"]

/-- `TrendAnalyzer.get_pinterest_trends`; `rs` are the `random.randint(75, 95)`
draws, one per seasonal keyword. -/
def get_pinterest_trends (month : Nat) (rs : List Nat) : List Topic :=
  List.zipWith (fun t r => ⟨t, r, none, none, some "pinterest"⟩)
    (seasonal_trends month) rs

/-- The evergreen fallback entries added when no source yields a candidate. -/
def evergreen_topics : List Topic :=
  [⟨"retinol for beginners", 85, some "low", some "steady", none⟩,
   ⟨"niacinamide benefits", 78, some "medium", some "rising", none⟩,
   ⟨"glass skin routine", 82, some "medium", some "rising", none⟩,
   ⟨"affordable skincare dupes", 88, some "low", some "steady", none⟩,
   ⟨"korean beauty secrets", 79, some "medium", some "steady", none⟩]

/-- Insert into a descending-by-interest list, after entries with strictly
greater or equal interest (this is the unique stable placement). -/
def insertDesc (x : Topic) : List Topic → List Topic
  | [] => [x]
  | y :: ys => if x.interest < y.interest then y :: insertDesc x ys else x :: y :: ys

/-- Python's stable `list.sort(key=lambda x: x["interest"], reverse=True)`:
a stable sort by a key is unique, so stable insertion sort models it
exactly. -/
def pySortDesc : List Topic → List Topic
  | [] => []
  | x :: xs => insertDesc x (pySortDesc xs)

theorem insertDesc_perm (x : Topic) : ∀ l, (insertDesc x l).Perm (x :: l)
  | [] => by simp [insertDesc]
  | y :: ys => by
    rw [insertDesc]
    split
    · exact ((insertDesc_perm x ys).cons y).trans (List.Perm.swap x y ys)
    · exact List.Perm.refl _

theorem pySortDesc_perm : ∀ l, (pySortDesc l).Perm l
  | [] => by simp [pySortDesc]
  | x :: xs => by
    rw [pySortDesc]
    exact (insertDesc_perm x (pySortDesc xs)).trans ((pySortDesc_perm xs).cons x)

theorem insertDesc_sorted (x : Topic) :
    ∀ l, l.Pairwise (fun a b => b.interest ≤ a.interest) →
      (insertDesc x l).Pairwise (fun a b => b.interest ≤ a.interest)
  | [] => by simp [insertDesc]
  | y :: ys => by
    intro h
    rw [insertDesc]
    rcases List.pairwise_cons.1 h with ⟨hy, hys⟩
    split
    · rename_i hlt
      refine List.pairwise_cons.2 ⟨?_, insertDesc_sorted x ys hys⟩
      intro z hz
      rcases List.mem_cons.1 ((insertDesc_perm x ys).mem_iff.1 hz) with rfl | hz
      · omega
      · exact hy z hz
    · rename_i hge
      refine List.pairwise_cons.2 ⟨?_, h⟩
      intro z hz
      rcases List.mem_cons.1 hz with rfl | hz
      · omega
      · have := hy z hz; omega

theorem pySortDesc_sorted :
    ∀ l, (pySortDesc l).Pairwise (fun a b => b.interest ≤ a.interest)
  | [] => by simp [pySortDesc]
  | x :: xs => by
    rw [pySortDesc]
    exact insertDesc_sorted x _ (pySortDesc_sorted xs)

/-- `TrendAnalyzer.get_trending_topics`, with the google-trends result `g`,
the current month and the pinterest random draws made explicit. -/
def get_trending_topics (g : List GTrend) (month : Nat) (rs : List Nat) :
    List Topic :=
  let googleTopics : List Topic :=
    (g.filter (fun d => MIN_KEYWORD_INTEREST ≤ d.interest)).map
      (fun d => ⟨d.keyword, d.interest, some (competitionOf d.keyword),
                 some d.trend, some "google_trends"⟩)
  let topics := googleTopics ++ get_pinterest_trends month rs
  let topics := if topics = [] then evergreen_topics else topics
  let filtered := topics.filter
    (fun t => MIN_KEYWORD_INTEREST ≤ t.interest && t.competition ≠ some "high")
  (pySortDesc filtered).take 10

theorem mem_zipWith_mine {f : α → β → γ} :
    ∀ {l₁ : List α} {l₂ : List β} {x : γ}, x ∈ List.zipWith f l₁ l₂ →
      ∃ a ∈ l₁, ∃ b ∈ l₂, x = f a b := by
  intro l₁
  induction l₁ with
  | nil => intro l₂ x hx; simp at hx
  | cons a l ih =>
    intro l₂ x hx
    cases l₂ with
    | nil => simp at hx
    | cons b l' =>
      rcases List.mem_cons.1 hx with hx | hx
      · exact ⟨a, by simp, b, by simp, hx⟩
      · rcases ih hx with ⟨a', ha', b', hb', hx'⟩
        exact ⟨a', by simp [ha'], b', by simp [hb'], hx'⟩

/-- C7: every returned entry passes the interest threshold and has no "high"
competition tag, the list is sorted by descending interest, and the first
element (the topic that drives the pipeline) has maximal interest. -/
theorem c7_get_trending_topics (g : List GTrend) (month : Nat) (rs : List Nat) :
    (∀ t ∈ get_trending_topics g month rs,
        MIN_KEYWORD_INTEREST ≤ t.interest ∧ t.competition ≠ some "high") ∧
    (get_trending_topics g month rs).Pairwise
      (fun a b => b.interest ≤ a.interest) ∧
    (∀ h ∈ (get_trending_topics g month rs).head?,
       ∀ t ∈ get_trending_topics g month rs, t.interest ≤ h.interest) := by
  have hsorted : (get_trending_topics g month rs).Pairwise
      (fun a b => b.interest ≤ a.interest) := by
    unfold get_trending_topics
    exact (pySortDesc_sorted _).sublist (List.take_sublist _ _)
  refine ⟨?_, hsorted, ?_⟩
  · intro t ht
    unfold get_trending_topics at ht
    have ht' := (List.take_sublist _ _).mem ht
    rw [(pySortDesc_perm _).mem_iff] at ht'
    have := List.of_mem_filter ht'
    simp only [Bool.and_eq_true, decide_eq_true_eq, bne_iff_ne, ne_eq] at this
    constructor
    · exact this.1
    · simpa using this.2
  · intro h hh t ht
    have hcons : ∃ tl, get_trending_topics g month rs = h :: tl := by
      cases hres : get_trending_topics g month rs with
      | nil => rw [hres] at hh; simp at hh
      | cons x tl =>
        rw [hres] at hh
        simp only [List.head?_cons, Option.mem_def, Option.some.injEq] at hh
        exact ⟨tl, by rw [hh]⟩
    rcases hcons with ⟨tl, hres⟩
    rw [hres] at hsorted ht
    rcases List.mem_cons.1 ht with rfl | ht
    · exact Nat.le_refl _
    · exact (List.pairwise_cons.1 hsorted).1 t ht

/-- Witness for `c7_get_trending_topics`: with no google data, December, and
draws `[80, 80, 80]`, the first returned entry satisfies the filter
property. -/
theorem c7_get_trending_topics_witness :
    MIN_KEYWORD_INTEREST ≤
        (Topic.mk "winter skincare" 80 none none (some "pinterest")).interest ∧
      (Topic.mk "winter skincare" 80 none none (some "pinterest")).competition ≠
        some "high" :=
  (c7_get_trending_topics [] 12 [80, 80, 80]).1 _ (by decide)

theorem seasonal_trends_default (month : Nat) (h : 13 ≤ month) :
    seasonal_trends month = ["general skincare", "makeup tips", "beauty routine"] := by
  unfold seasonal_trends
  repeat rw [if_neg (by omega)]

theorem seasonal_trends_ne_nil (month : Nat) : seasonal_trends month ≠ [] := by
  rcases Nat.lt_or_ge month 13 with h | h
  · interval_cases month <;> decide
  · rw [seasonal_trends_default month h]; decide

theorem seasonal_trends_keywords_ne_empty (month : Nat) :
    ∀ k ∈ seasonal_trends month, k ≠ "" := by
  rcases Nat.lt_or_ge month 13 with h | h
  · interval_cases month <;> decide
  · rw [seasonal_trends_default month h]; decide

/-- C6, counterexample: with pytrends unavailable (empty google data) in
December, the first returned topic is `"winter skincare"`, which comes from
the seasonal (simulated Pinterest) table and is not in the evergreen fallback
list — the evergreen list is unreachable because the simulated Pinterest
source always yields candidates. -/
theorem c6_counterexample :
    ((get_trending_topics [] 12 [80, 80, 80]).head?.map Topic.keyword =
        some "winter skincare") ∧
      "winter skincare" ∉ evergreen_topics.map Topic.keyword := by
  decide

/-- C6 (amended): when no external trend source is reachable (pytrends
unavailable or the lookup failing, i.e. empty google data),
`get_trending_topics` still returns a non-empty list; its first entry is a
non-empty keyword drawn from the *seasonal* fallback table (not the evergreen
list, which is only reachable when every source yields nothing); and the
external-trend path `get_google_trends` returns `{}` rather than propagating
a failure. -/
theorem c6_get_trending_topics_fallback (month : Nat) (rs : List Nat)
    (hlen : rs.length = (seasonal_trends month).length)
    (hr : ∀ r ∈ rs, 75 ≤ r ∧ r ≤ 95) :
    get_trending_topics [] month rs ≠ [] ∧
    (∀ h ∈ (get_trending_topics [] month rs).head?,
       h.keyword ∈ seasonal_trends month ∧ h.keyword ≠ "") ∧
    (∀ df, get_google_trends false df = []) ∧
    get_google_trends true none = [] := by
  have hpin_mem : ∀ t ∈ get_pinterest_trends month rs,
      (∃ k ∈ seasonal_trends month, t.keyword = k) ∧ t.interest ∈ rs ∧
        t.competition = none := by
    intro t ht
    rcases mem_zipWith_mine ht with ⟨k, hk, r, hrmem, rfl⟩
    exact ⟨⟨k, hk, rfl⟩, hrmem, rfl⟩
  have hpin_ne : get_pinterest_trends month rs ≠ [] := by
    unfold get_pinterest_trends
    rw [ne_eq, List.zipWith_eq_nil_iff]
    push_neg
    refine ⟨seasonal_trends_ne_nil month, ?_⟩
    intro hnil
    rw [hnil] at hlen
    exact seasonal_trends_ne_nil month (List.eq_nil_of_length_eq_zero hlen.symm)
  have hdef : get_trending_topics [] month rs =
      ((pySortDesc ((get_pinterest_trends month rs).filter
        (fun t => MIN_KEYWORD_INTEREST ≤ t.interest &&
          t.competition ≠ some "high"))).take 10) := by
    unfold get_trending_topics
    simp only [List.filter_nil, List.map_nil, List.nil_append]
    rw [if_neg hpin_ne]
  have hfilter : (get_pinterest_trends month rs).filter
      (fun t => MIN_KEYWORD_INTEREST ≤ t.interest &&
        t.competition ≠ some "high") = get_pinterest_trends month rs := by
    apply List.filter_eq_self.2
    intro t ht
    rcases hpin_mem t ht with ⟨_, hint, hcomp⟩
    have h75 := (hr _ hint).1
    simp [hcomp, MIN_KEYWORD_INTEREST]
    omega
  have hres_ne : get_trending_topics [] month rs ≠ [] := by
    rw [hdef, hfilter]
    intro hnil
    have hlen0 := congrArg List.length hnil
    rw [List.length_take, (pySortDesc_perm _).length_eq] at hlen0
    simp only [List.length_nil] at hlen0
    have := List.length_pos.2 hpin_ne
    omega
  refine ⟨hres_ne, ?_, fun df => rfl, rfl⟩
  intro h hh
  have hmem : h ∈ get_trending_topics [] month rs := List.mem_of_mem_head? hh
  rw [hdef, hfilter] at hmem
  have hmem' : h ∈ get_pinterest_trends month rs :=
    (pySortDesc_perm _).mem_iff.1 ((List.take_sublist _ _).mem hmem)
  rcases hpin_mem h hmem' with ⟨⟨k, hk, hkeq⟩, _, _⟩
  rw [hkeq]
  exact ⟨hk, seasonal_trends_keywords_ne_empty month k hk⟩

/-- Witness for `c6_get_trending_topics_fallback` at December with draws
`[80, 80, 80]`. -/
theorem c6_get_trending_topics_fallback_witness :
    get_trending_topics [] 12 [80, 80, 80] ≠ [] :=
  (c6_get_trending_topics_fallback 12 [80, 80, 80] (by decide) (by decide)).1

/-! ## `ImageManager` (src/main.py 292-365) -/

/-- One image dict. -/
structure Image where
  url : String
  url_medium : String
  alt : String
  photographer : String
  photographer_url : String
  pexels_url : String
deriving DecidableEq, Repr

/-- One photo object of a Pexels API reply (`alt` may be missing). -/
structure Photo where
  src_large : String
  src_medium : String
  alt : Option String
  photographer : String
  photographer_url : String
  url : String
deriving DecidableEq, Repr

/-- The three-element bank of `ImageManager._placeholders`. -/
def placeholder_bank (query : String) : List Image :=
  [⟨"https://images.pexels.com/photos/3762879/pexels-photo-3762879.jpeg?auto=compress&cs=tinysrgb&w=800",
    "https://images.pexels.com/photos/3762879/pexels-photo-3762879.jpeg?auto=compress&cs=tinysrgb&w=600",
    query ++ " - Beautiful skincare routine",
    "Pexels", "https://www.pexels.com", "https://www.pexels.com"⟩,
   ⟨"https://images.pexels.com/photos/3993212/pexels-photo-3993212.jpeg?auto=compress&cs=tinysrgb&w=800",
    "https://images.pexels.com/photos/3993212/pexels-photo-3993212.jpeg?auto=compress&cs=tinysrgb&w=600",
    query ++ " - Natural beauty and wellness",
    "Pexels", "https://www.pexels.com", "https://www.pexels.com"⟩,
   ⟨"https://images.pexels.com/photos/4041392/pexels-photo-4041392.jpeg?auto=compress&cs=tinysrgb&w=800",
    "https://images.pexels.com/photos/4041392/pexels-photo-4041392.jpeg?auto=compress&cs=tinysrgb&w=600",
    query ++ " - Glowing healthy skin",
    "Pexels", "https://www.pexels.com", "https://www.pexels.com"⟩]

/-- `ImageManager._placeholders` (`bank[:count]`). -/
def placeholders (query : String) (count : Nat) : List Image :=
  (placeholder_bank query).take count

/-- `ImageManager.search_pexels_images`.  The HTTP call is modelled by
`resp`: `none` is a raised request exception (caught in the source),
`some (status, photos)` a reply with its status code.  The memo cache is an
association list keyed by `f"{query}_{count}"`. -/
def search_pexels_images (apiKey : String) (cache : List (String × List Image))
    (query : String) (count : Nat) (resp : Option (Nat × List Photo)) :
    List Image :=
  if apiKey = "" then placeholders query count
  else
    match cache.find? (fun kv => kv.1 = query ++ "_" ++ toString count) with
    | some kv => kv.2
    | none =>
      match resp with
      | some (status, photos) =>
        if status = 200 then
          (photos.take count).map (fun p =>
            ⟨p.src_large, p.src_medium,
             query ++ " - " ++ p.alt.getD "Beauty and skincare image",
             p.photographer, p.photographer_url, p.url⟩)
        else placeholders query count
      | none => placeholders query count

theorem placeholders_length (query : String) (count : Nat) :
    (placeholders query count).length = min count 3 := by
  simp [placeholders, placeholder_bank]

/-- C9: on every fallback path — no API key, or a cache miss combined with a
non-200 response or a request exception — `search_pexels_images` returns the
placeholder list, which has exactly `min count 3` entries for every
`count ≥ 0`; in particular requesting four images yields only three. -/
theorem c9_search_pexels_images_fallback (apiKey query : String) (count : Nat)
    (cache : List (String × List Image)) (resp : Option (Nat × List Photo))
    (h : apiKey = "" ∨
      (cache.find? (fun kv => kv.1 = query ++ "_" ++ toString count) = none ∧
        ∀ st ph, resp = some (st, ph) → st ≠ 200)) :
    search_pexels_images apiKey cache query count resp = placeholders query count ∧
    (search_pexels_images apiKey cache query count resp).length = min count 3 := by
  have heq : search_pexels_images apiKey cache query count resp =
      placeholders query count := by
    unfold search_pexels_images
    rcases h with rfl | ⟨hmiss, hfail⟩
    · simp
    · by_cases ha : apiKey = ""
      · simp [ha]
      · rw [if_neg ha, hmiss]
        match resp, hfail with
        | none, _ => rfl
        | some (st, ph), hfail =>
          exact if_neg (hfail st ph rfl)
  exact ⟨heq, by rw [heq]; exact placeholders_length query count⟩

/-- Witness for `c9_search_pexels_images_fallback`: an API key is set, the
cache is empty, the server replies 500, and four images are requested — the
result is the three placeholders. -/
theorem c9_search_pexels_images_fallback_witness :
    search_pexels_images "key" [] "glass skin routine" 4 (some (500, [])) =
        placeholders "glass skin routine" 4 ∧
      (search_pexels_images "key" [] "glass skin routine" 4
          (some (500, []))).length = min 4 3 :=
  c9_search_pexels_images_fallback "key" "glass skin routine" 4 [] (some (500, []))
    (Or.inr ⟨rfl, by intro st ph h; cases h; decide⟩)

/-! ## `ProductDatabase.create_affiliate_link` and `ContentGenerator`
(src/main.py 286-289, 368-514) -/

/-- `Config.AMAZON_AFFILIATE_TAG` (default value). -/
def AMAZON_AFFILIATE_TAG : String := "helenbeautysh-20"

/-- `ProductDatabase.create_affiliate_link`. -/
def create_affiliate_link (tag : String) (p : Product) : String :=
  "<a href=\"https://www.amazon.com/dp/" ++ p.id ++ "/?tag=" ++ tag ++
    "\" target=\"_blank\" rel=\"nofollow sponsored\">" ++ p.name ++ "</a>"

/-- `ContentGenerator._img_block` (the `if not img` branch never fires at the
call sites, which index into non-empty lists of image dicts). -/
def img_block (img : Image) : String :=
  "<figure class=\"post-image\">" ++
    "<img src=\"" ++ img.url ++ "\" alt=\"" ++ img.alt ++ "\" loading=\"lazy\" />" ++
    "<figcaption>Photo by <a href=\"" ++ img.photographer_url ++
    "\" target=\"_blank\" rel=\"noopener\">" ++ img.photographer ++
    "</a></figcaption>" ++
    "</figure>"

/-- `self.intro_templates`, as functions of the interpolated keyword. -/
def intro_templates : List (String → String) :=
  [fun keyword => "Hey gorgeous! ‚ú® If you've been searching for the ultimate guide to " ++ keyword ++ ", you've landed in exactly the right place.",
   fun keyword => "Beauty lovers, gather around! üíï Today we're diving deep into everything you need to know about " ++ keyword ++ ".",
   fun keyword => "Ready to transform your beauty routine? I'm so excited to share this comprehensive guide to " ++ keyword ++ " with you!",
   fun keyword => "If " ++ keyword ++ " has been on your wishlist but you don't know where to start, this guide is for you, babe!"]

/-- `self.conclusion_templates`. -/
def conclusion_templates : List (String → String) :=
  [fun keyword => "There you have it, beauties! Your complete guide to " ++ keyword ++ ". Remember, consistency is key when it comes to any beauty routine.",
   fun keyword => "I hope this guide helps you on your " ++ keyword ++ " journey! What's your favorite tip from this post?",
   fun keyword => "That's a wrap on our " ++ keyword ++ " deep dive! I'd love to hear about your experience - drop a comment below!",
   fun keyword => "Thanks for joining me on this " ++ keyword ++ " adventure! Remember, the best beauty routine is the one you'll actually stick to."]

/-- `self._img_block(images[0]) if images else ""`. -/
def heroOf (images : List Image) : String :=
  match images with
  | [] => ""
  | img :: _ => img_block img

/-- `self._img_block(images[1])` (evaluated only under `len(images) > 1`). -/
def stepImgOf (images : List Image) : String :=
  match images.drop 1 with
  | [] => ""
  | img :: _ => img_block img

/-- `self.product_db.create_affiliate_link(products[n]) if len(products) > n
else ""`. -/
def linkOfAt (tag : String) (products : List Product) (n : Nat) : String :=
  match products.drop n with
  | [] => ""
  | p :: _ => create_affiliate_link tag p

/-- The first appended section (intro + hero image). -/
def intro_section (intro keyword hero_html : String) : String :=
  "\n<div class=\"intro-section\">\n    <p>" ++ intro ++
  " I'm Helen, and today we're diving deep into everything you need to know about " ++
  keyword ++
  ".</p>\n    <p>Whether you're a complete beginner or looking to level up your current routine, this comprehensive guide will walk you through step-by-step techniques, product recommendations, and insider tips that actually work.</p>\n    " ++
  hero_html ++ "\n</div>\n"

/-- The second appended section (`What is {keyword}?`). -/
def what_is_section (keyword product0_link : String) : String :=
  "\n<h2>What is " ++ pyTitle keyword ++
  "?</h2>\n<p>Let's start with the basics, shall we? " ++ pyTitle keyword ++
  " is more than just a beauty trend ‚Äì it's a comprehensive approach that focuses on enhancing your natural beauty while maintaining healthy, glowing skin.</p>\n<p>Here's what makes " ++
  keyword ++
  " so special and why it's taking the beauty world by storm:</p>\n<ul>\n    <li><strong>Promotes healthy, radiant skin:</strong> Works with your skin's natural processes rather than against them</li>\n    <li><strong>Uses gentle, effective ingredients:</strong> No harsh chemicals that can damage your precious skin barrier</li>\n    <li><strong>Suitable for most skin types:</strong> Adaptable techniques that work whether you have oily, dry, or combination skin</li>\n    <li><strong>Focuses on long-term results:</strong> Sustainable beauty practices that deliver lasting improvements</li>\n    <li><strong>Budget-friendly options available:</strong> You don't need to break the bank to see amazing results</li>\n</ul>\n<p>One product that's been absolutely revolutionary in my " ++
  keyword ++ " journey is " ++ product0_link ++
  ". This little miracle worker has completely transformed my routine, and I can't recommend it enough!</p>\n"

/-- The optional step-by-step section (only when `len(images) > 1`). -/
def step_guide_section (keyword step_img product1_link : String) : String :=
  "\n<h2>Step-by-Step " ++ pyTitle keyword ++ " Guide</h2>\n" ++ step_img ++
  "\n<p>Now let's get into the nitty-gritty! Here's my foolproof method that I've perfected over years of trial and error:</p>\n<h3>Step 1: Preparation is Everything</h3>\n<p>Before we dive in, make sure you're starting with a clean slate. Always begin with freshly washed hands and a thoroughly cleansed face. This step is crucial because it ensures maximum product absorption and prevents any bacteria from interfering with your routine.</p>\n<h3>Step 2: Apply Your Key Products</h3>\n<p>This is where the magic happens! " ++
  product1_link ++
  " has been my holy grail for this step. Apply it evenly using gentle patting motions ‚Äì never rub or pull at your delicate skin.</p>\n<h3>Step 3: Lock Everything In</h3>\n<p>Seal in all that goodness with a quality moisturizer. And if you're doing this routine in the morning, sunscreen is absolutely non-negotiable.</p>\n<p>Remember: consistency beats perfection every single time. It's better to do a simple routine religiously than a complicated one sporadically.</p>\n"

/-- The mistakes-to-avoid section. -/
def mistakes_section (keyword product2_link : String) : String :=
  "\n<h2>Common " ++ pyTitle keyword ++
  " Mistakes to Avoid</h2>\n<p>Let's talk about the mistakes I see people making all the time ‚Äì and trust me, I've made most of these myself when I was starting out!</p>\n<h3>‚ùå Mistake #1: Using Too Much Product</h3>\n<p>Less is more with " ++
  keyword ++
  ". Start with small amounts and build up gradually to avoid irritation.</p>\n<h3>‚ùå Mistake #2: Being Inconsistent</h3>\n<p>Results come from consistency, not perfection. A simple daily routine beats a complex once-a-week ritual.</p>\n<h3>‚ùå Mistake #3: Wrong Product Selection</h3>\n<p>Not all products are created equal. " ++
  product2_link ++
  " is one of my top picks because it's gentle, effective, and delivers results without overwhelming your skin.</p>\n"

/-- The tips / FAQ / conclusion section. -/
def tips_faq_section (keyword conclusion : String) : String :=
  "\n<h2>Top Tips for " ++ pyTitle keyword ++
  "</h2>\n<ul>\n    <li>Patch test new products before applying them to your whole face.</li>\n    <li>Introduce one active ingredient at a time so you can tell how your skin reacts.</li>\n    <li>Use sunscreen every morning ‚Äî the most important anti-aging product you‚Äôll ever own.</li>\n    <li>Be patient: skin improvements take time‚Äîusually several weeks to months.</li>\n</ul>\n<h2>FAQ</h2>\n<h3>How often should I do this routine?</h3>\n<p>Start with a simple morning and night routine. Introduce actives like retinol slowly (1‚Äì2x per week) and ramp up as your skin tolerates it.</p>\n<div class=\"conclusion\">\n    <p>" ++
  conclusion ++ "</p>\n</div>\n"

/-- The `sections` list built by `create_structured_content`. -/
def sectionsOf (tag keyword : String) (products : List Product)
    (images : List Image) (iIdx cIdx : Nat) : List String :=
  [intro_section (pyChoice intro_templates (fun _ => "") iIdx keyword) keyword
     (heroOf images),
   what_is_section keyword (linkOfAt tag products 0)] ++
  (match images with
   | _ :: _ :: _ =>
     [step_guide_section keyword (stepImgOf images) (linkOfAt tag products 1)]
   | _ => []) ++
  [mistakes_section keyword (linkOfAt tag products 2),
   tips_faq_section keyword (pyChoice conclusion_templates (fun _ => "") cIdx keyword)]

/-- `ContentGenerator.create_structured_content`
(`"\n".join(sections)`). -/
def create_structured_content (tag keyword : String) (products : List Product)
    (images : List Image) (iIdx cIdx : Nat) : String :=
  String.intercalate "\n" (sectionsOf tag keyword products images iIdx cIdx)

/-! ## Heading extraction and the C5 / C8 claims about
`create_structured_content` -/

/-- State of the heading scanner: scanning for an opening tag, skipping the
rest of an opening tag, or grabbing heading text (reversed) until the
closing `</h`. -/
inductive HMode where
  | scan : HMode
  | skip : Nat → HMode
  | grab : List Char → HMode

/-- Heading scanner: collects the text contents of every `<h2>`/`<h3>`
element. -/
def headingsAux : List Char → HMode → List (List Char)
  | [], HMode.grab acc => [acc.reverse]
  | [], _ => []
  | c :: cs, HMode.scan =>
    if ("<h2>".data).isPrefixOf (c :: cs) || ("<h3>".data).isPrefixOf (c :: cs) then
      headingsAux cs (HMode.skip 2)
    else headingsAux cs HMode.scan
  | _ :: cs, HMode.skip (n + 1) => headingsAux cs (HMode.skip n)
  | _ :: cs, HMode.skip 0 => headingsAux cs (HMode.grab [])
  | c :: cs, HMode.grab acc =>
    if ("</h".data).isPrefixOf (c :: cs) then acc.reverse :: headingsAux cs HMode.scan
    else headingsAux cs (HMode.grab (c :: acc))

/-- The text contents of all `<h2>`/`<h3>` heading elements of an HTML
string. -/
def headingsL (l : List Char) : List (List Char) := headingsAux l HMode.scan

/-- C8: for every topic, product list, image list and template draw, the
assembled document is the newline-join of the blocks in the fixed order
intro-with-hero, what-is (first affiliate slot), optional step-by-step
(second affiliate slot) present if and only if at least two images are
available, mistakes-to-avoid (third affiliate slot), tips/FAQ with the
closing paragraph; so the section list has 5 blocks when `2 ≤ |images|` and
4 otherwise. -/
theorem c8_create_structured_content (tag keyword : String)
    (products : List Product) (images : List Image) (iIdx cIdx : Nat) :
    create_structured_content tag keyword products images iIdx cIdx =
      String.intercalate "\n"
        ([intro_section (pyChoice intro_templates (fun _ => "") iIdx keyword)
            keyword (heroOf images),
          what_is_section keyword (linkOfAt tag products 0)] ++
         (if 2 ≤ images.length then
           [step_guide_section keyword (stepImgOf images) (linkOfAt tag products 1)]
          else []) ++
         [mistakes_section keyword (linkOfAt tag products 2),
          tips_faq_section keyword
            (pyChoice conclusion_templates (fun _ => "") cIdx keyword)]) ∧
    ((sectionsOf tag keyword products images iIdx cIdx).length =
      if 2 ≤ images.length then 5 else 4) := by
  match images with
  | [] =>
    rw [if_neg (by simp)]
    exact ⟨rfl, by simp [sectionsOf]⟩
  | [img] =>
    rw [if_neg (by simp)]
    exact ⟨rfl, by simp [sectionsOf]⟩
  | img₁ :: img₂ :: rest =>
    rw [if_pos (by simp only [List.length_cons]; omega)]
    exact ⟨rfl, by simp [sectionsOf]⟩

/-- The product fixture: for the topic `"glass skin routine"` no product
matches, so the skincare fallback fires and (sampling with the identity
permutation) the first three skincare products are returned. -/
def fixture_products : List Product :=
  find_relevant_products "glass skin routine" 3
    (uniqueProducts "glass skin routine")

/-- The image fixture: with no Pexels key configured the three placeholder
images are returned. -/
def fixture_images : List Image :=
  search_pexels_images "" [] "glass skin routine" 3 none

/-- The document assembled from the fixture (first intro and conclusion
template). -/
def fixture_document : String :=
  create_structured_content AMAZON_AFFILIATE_TAG "glass skin routine"
    fixture_products fixture_images 0 0

/-- C5, counterexample: the literal topic string `"glass skin routine"` does
not occur in any heading element of the assembled fixture document — every
heading interpolates the topic through `keyword.title()`, i.e. as
`"Glass Skin Routine"`. -/
theorem c5_counterexample :
    ¬ ((headingsL fixture_document.data).any
        (fun h => containsSub "glass skin routine".data h) = true) := by
  set_option maxRecDepth 400000 in decide

/-- C5 (amended): for topic `"glass skin routine"` with the fixture of three
products (the skincare fallback of `find_relevant_products`) and three images
(the placeholders of `search_pexels_images`), the assembler emits exactly one
affiliate-tagged link per product consumed — three `<a href="https://www.amazon.com/dp/...`
links in total, each product's full affiliate anchor occurring exactly once —
and embeds the topic in title-cased form `"Glass Skin Routine"` (not the
lowercase literal) in at least one heading element. -/
theorem c5_create_structured_content_fixture :
    fixture_products.length = 3 ∧ fixture_images.length = 3 ∧
    countSub ("<a href=\"https://www.amazon.com/dp/".data) fixture_document.data = 3 ∧
    (fixture_products.map (fun p =>
      countSub (create_affiliate_link AMAZON_AFFILIATE_TAG p).data
        fixture_document.data)) = [1, 1, 1] ∧
    (headingsL fixture_document.data).any
      (fun h => containsSub "Glass Skin Routine".data h) = true := by
  refine ⟨by decide, by decide, ?_, ?_, ?_⟩
  · set_option maxRecDepth 400000 in decide
  · set_option maxRecDepth 400000 in decide
  · set_option maxRecDepth 400000 in decide

/-! ## The affiliate tagger (C1)

Modelled from the spec: the spec's §4.3 "Affiliate Tagger" — a pure text
transform that scans an HTML string for marketplace (`amazon.com`) URLs and
appends the tracking parameter when absent, leaving already-tagged URLs
unchanged and choosing `&` or `?` as separator depending on whether the URL
already has a query string — has no implementation under `src/`; the source
only contains `ProductDatabase.create_affiliate_link`, which emits
ready-tagged links.  The definitions `tagURL`, `tagL` and
`add_affiliate_tags` below are therefore modelled from the spec's words: a
URL starts at a match of `https://www.amazon.com/` and extends to the next
quote, space, `<` or `>`. -/

/-- Characters that end a URL inside HTML text. -/
def isDelim (c : Char) : Bool := c = '"' || c = ' ' || c = '<' || c = '>'

/-- A URL character. -/
def nonDelim (c : Char) : Bool := !isDelim c

/-- The marketplace domain pattern. -/
def amazonPat : List Char := "https://www.amazon.com/".data

/-- Modelled from the spec: tag one recognized marketplace URL — leave it
unchanged if it already carries a `tag` parameter, otherwise append the
tracking tag `t` with `&` or `?` depending on whether a query string is
present. -/
def tagURL (t u : List Char) : List Char :=
  if containsSub ("?tag=".data) u || containsSub ("&tag=".data) u then u
  else if u.contains '?' then u ++ ("&tag=".data ++ t)
  else u ++ ("?tag=".data ++ t)

/-- Modelled from the spec: scan the HTML for marketplace URLs and tag each
one (recursion on the suffix after each URL). -/
def tagL (t : List Char) : List Char → List Char
  | [] => []
  | c :: cs =>
    if h : amazonPat.isPrefixOf (c :: cs) then
      tagURL t ((c :: cs).takeWhile nonDelim) ++
        tagL t ((c :: cs).dropWhile nonDelim)
    else c :: tagL t cs
termination_by l => l.length
decreasing_by
  · simp_wf
    have hc : c = 'h' := by
      have hP : amazonPat = 'h' :: ("ttps://www.amazon.com/".data) := rfl
      rw [hP, List.isPrefixOf, Bool.and_eq_true] at h
      exact (beq_iff_eq.1 h.1).symm
    have hnd : nonDelim c = true := by rw [hc]; decide
    rw [List.dropWhile_cons_of_pos hnd]
    exact Nat.lt_succ_of_le (List.dropWhile_sublist _ |>.length_le)
  · simp_wf

/-- Tail-recursive scanner equivalent to `tagL`: `none` while scanning,
`some acc` while collecting the characters of a URL (reversed); used so that
concrete instances reduce in the kernel. -/
def tagAux (t : List Char) : List Char → Option (List Char) → List Char
  | [], none => []
  | [], some acc => tagURL t acc.reverse
  | c :: cs, none =>
    if amazonPat.isPrefixOf (c :: cs) then tagAux t cs (some [c])
    else c :: tagAux t cs none
  | c :: cs, some acc =>
    if isDelim c then tagURL t acc.reverse ++ (c :: tagAux t cs none)
    else tagAux t cs (some (c :: acc))

/-- Modelled from the spec: the affiliate-tagging transform over an HTML
string, with the repository's tracking tag. -/
def add_affiliate_tags (html : String) : String :=
  ⟨tagL AMAZON_AFFILIATE_TAG.data html.data⟩

theorem tagL_nil (t : List Char) : tagL t [] = [] := by rw [tagL]

theorem tagL_cons_pos (t : List Char) {c : Char} {cs : List Char}
    (h : amazonPat.isPrefixOf (c :: cs) = true) :
    tagL t (c :: cs) =
      tagURL t ((c :: cs).takeWhile nonDelim) ++
        tagL t ((c :: cs).dropWhile nonDelim) := by
  rw [tagL, dif_pos h]

theorem tagL_cons_neg (t : List Char) {c : Char} {cs : List Char}
    (h : ¬ amazonPat.isPrefixOf (c :: cs) = true) :
    tagL t (c :: cs) = c :: tagL t cs := by
  rw [tagL, dif_neg h]

theorem amazon_head {c : Char} {cs : List Char}
    (h : amazonPat.isPrefixOf (c :: cs) = true) : c = 'h' := by
  have hP : amazonPat = 'h' :: ("ttps://www.amazon.com/".data) := rfl
  rw [hP, List.isPrefixOf, Bool.and_eq_true] at h
  exact (beq_iff_eq.1 h.1).symm

theorem tagL_cons_delim (t : List Char) {c : Char} {cs : List Char}
    (h : isDelim c = true) : tagL t (c :: cs) = c :: tagL t cs := by
  apply tagL_cons_neg
  intro hpre
  rw [amazon_head hpre] at h
  exact absurd h (by decide)

theorem containsSub_of_isPrefixOf {pat l : List Char}
    (h : pat.isPrefixOf l = true) : containsSub pat l = true := by
  cases l with
  | nil =>
    cases pat with
    | nil => rfl
    | cons p ps => simp [List.isPrefixOf] at h
  | cons c cs => simp [containsSub, h]

theorem containsSub_append_left (pat : List Char) :
    ∀ (a l : List Char), containsSub pat l = true →
      containsSub pat (a ++ l) = true := by
  intro a
  induction a with
  | nil => intro l h; simpa using h
  | cons c a' ih =>
    intro l h
    rw [List.cons_append]
    rw [containsSub]
    rw [ih l h]
    simp

theorem containsSub_self_append (pat tail : List Char) :
    containsSub pat (pat ++ tail) = true :=
  containsSub_of_isPrefixOf
    ( List.isPrefixOf_iff_prefix.2 (List.prefix_append pat tail))

/-- Tagging a URL twice is a no-op: the first pass leaves the URL with a
`?tag=` or `&tag=` parameter that the second pass detects. -/
theorem tagURL_idem (t u : List Char) : tagURL t (tagURL t u) = tagURL t u := by
  have key : ∀ v : List Char,
      (containsSub ("?tag=".data) v || containsSub ("&tag=".data) v) = true →
      tagURL t v = v := by
    intro v hv
    unfold tagURL
    rw [if_pos hv]
  by_cases h1 : (containsSub ("?tag=".data) u || containsSub ("&tag=".data) u) = true
  · rw [key u h1]
    exact key u h1
  · by_cases hq : u.contains '?' = true
    · have hw : tagURL t u = u ++ ("&tag=".data ++ t) := by
        unfold tagURL
        rw [if_neg h1, if_pos hq]
      rw [hw]
      apply key
      have hc : containsSub ("&tag=".data) (u ++ ("&tag=".data ++ t)) = true :=
        containsSub_append_left _ u _ (containsSub_self_append _ t)
      rw [hc]
      simp
    · have hw : tagURL t u = u ++ ("?tag=".data ++ t) := by
        unfold tagURL
        rw [if_neg h1, if_neg hq]
      rw [hw]
      apply key
      have hc : containsSub ("?tag=".data) (u ++ ("?tag=".data ++ t)) = true :=
        containsSub_append_left _ u _ (containsSub_self_append _ t)
      rw [hc]
      simp

/-- `tagURL` only ever appends to the URL, and the appended text consists of
URL characters when the tag does. -/
theorem tagURL_append (t u : List Char) (ht : ∀ c ∈ t, nonDelim c = true) :
    ∃ ext, tagURL t u = u ++ ext ∧ ∀ c ∈ ext, nonDelim c = true := by
  unfold tagURL
  split
  · exact ⟨[], by simp⟩
  · split
    · refine ⟨"&tag=".data ++ t, rfl, ?_⟩
      have hlit : ∀ c ∈ ("&tag=".data), nonDelim c = true := by decide
      intro c hc
      rcases List.mem_append.1 hc with hc | hc
      · exact hlit c hc
      · exact ht c hc
    · refine ⟨"?tag=".data ++ t, rfl, ?_⟩
      have hlit : ∀ c ∈ ("?tag=".data), nonDelim c = true := by decide
      intro c hc
      rcases List.mem_append.1 hc with hc | hc
      · exact hlit c hc
      · exact ht c hc

theorem amazonPat_nonDelim : ∀ c ∈ amazonPat, nonDelim c = true := by
  decide

/-- A prefix whose characters all satisfy `p` survives `takeWhile p`. -/
theorem prefix_takeWhile {p : Char → Bool} :
    ∀ {P s : List Char}, P <+: s → (∀ c ∈ P, p c = true) →
      P <+: s.takeWhile p := by
  intro P
  induction P with
  | nil => intro s _ _; exact List.nil_prefix
  | cons a P' ih =>
    intro s hP hall
    rcases hP with ⟨tail, htail⟩
    cases s with
    | nil => simp at htail
    | cons b s' =>
      rw [List.cons_append] at htail
      injection htail with hb hs
      subst hb
      rw [List.takeWhile_cons_of_pos (hall a (by simp))]
      have hP' : P' <+: s' := ⟨tail, hs⟩
      rcases ih hP' (fun c hc => hall c (List.mem_cons_of_mem a hc)) with ⟨tl, htl⟩
      exact ⟨tl, by rw [List.cons_append, htl]⟩

/-- `dropWhile p` yields the empty list or a list whose head fails `p`. -/
theorem dropWhile_head_not (p : Char → Bool) :
    ∀ l : List Char, l.dropWhile p = [] ∨
      ∃ d rest, l.dropWhile p = d :: rest ∧ p d = false := by
  intro l
  induction l with
  | nil => simp
  | cons c cs ih =>
    by_cases h : p c = true
    · rw [List.dropWhile_cons_of_pos h]
      exact ih
    · rw [List.dropWhile_cons_of_neg h]
      exact Or.inr ⟨c, cs, rfl, Bool.not_eq_true _ ▸ (by simpa using h)⟩

theorem takeWhile_append_all {p : Char → Bool} :
    ∀ (A B : List Char), (∀ c ∈ A, p c = true) →
      (A ++ B).takeWhile p = A ++ B.takeWhile p ∧
        (A ++ B).dropWhile p = B.dropWhile p := by
  intro A
  induction A with
  | nil => intro B _; simp
  | cons a A' ih =>
    intro B hall
    have ha : p a = true := hall a (by simp)
    rw [List.cons_append, List.takeWhile_cons_of_pos ha,
      List.dropWhile_cons_of_pos ha, List.cons_append]
    rcases ih B (fun c hc => hall c (List.mem_cons_of_mem a hc)) with ⟨h1, h2⟩
    exact ⟨by rw [h1], h2⟩

/-- `tagL` for any non-empty list starting with the marketplace pattern. -/
theorem tagL_pos (t : List Char) {s : List Char}
    (h : amazonPat.isPrefixOf s = true) :
    tagL t s =
      tagURL t (s.takeWhile nonDelim) ++ tagL t (s.dropWhile nonDelim) := by
  cases s with
  | nil => exact absurd h (by decide)
  | cons c cs => exact tagL_cons_pos t h

/-- The tagger never changes the first `|amazonPat|` characters of its
input (insertions happen only after a complete URL, which is at least as long
as the marketplace pattern). -/
theorem tagL_take (t : List Char) (ht : ∀ c ∈ t, nonDelim c = true) :
    ∀ (s : List Char) (k : Nat), k ≤ amazonPat.length →
      (tagL t s).take k = s.take k := by
  intro s
  induction s with
  | nil => intro k _; rw [tagL_nil]
  | cons c cs ih =>
    intro k hk
    by_cases h : amazonPat.isPrefixOf (c :: cs) = true
    · rw [tagL_cons_pos t h]
      have hPu : amazonPat <+: (c :: cs).takeWhile nonDelim :=
        prefix_takeWhile ( List.isPrefixOf_iff_prefix.1 h) amazonPat_nonDelim
      have hulen : k ≤ ((c :: cs).takeWhile nonDelim).length :=
        le_trans hk hPu.length_le
      rcases tagURL_append t ((c :: cs).takeWhile nonDelim) ht with ⟨ext, hext, _⟩
      rw [hext, List.append_assoc, List.take_append_of_le_length hulen]
      rcases List.takeWhile_prefix (l := c :: cs) nonDelim with ⟨tl, htl⟩
      conv_rhs => rw [← htl]
      rw [List.take_append_of_le_length hulen]
    · rw [tagL_cons_neg t h]
      cases k with
      | zero => simp
      | succ j =>
        have hj : j ≤ amazonPat.length := Nat.le_of_succ_le hk
        rw [List.take_succ_cons, List.take_succ_cons, ih j hj]

/-- The tagger neither creates nor destroys a marketplace-pattern match at
the start of the string. -/
theorem tagL_isPrefixOf (t : List Char) (ht : ∀ c ∈ t, nonDelim c = true)
    (s : List Char) :
    amazonPat.isPrefixOf (tagL t s) = amazonPat.isPrefixOf s := by
  have htake := tagL_take t ht s amazonPat.length (Nat.le_refl _)
  have hiff : amazonPat <+: tagL t s ↔ amazonPat <+: s := by
    rw [List.prefix_iff_eq_take, List.prefix_iff_eq_take, htake]
  cases hb : amazonPat.isPrefixOf s with
  | true =>
    exact List.isPrefixOf_iff_prefix.2
      (hiff.2 ( List.isPrefixOf_iff_prefix.1 hb))
  | false =>
    by_contra hcontra
    rw [Bool.not_eq_false, List.isPrefixOf_iff_prefix] at hcontra
    have hs : amazonPat <+: s := hiff.1 hcontra
    rw [← List.isPrefixOf_iff_prefix, hb] at hs
    exact Bool.false_ne_true hs

/-- Scanning a freshly tagged URL followed by a delimiter-headed (or empty)
remainder re-extracts exactly the tagged URL and leaves it unchanged. -/
theorem tagL_append_url (t : List Char) (ht : ∀ c ∈ t, nonDelim c = true)
    (u B : List Char) (hu_pre : amazonPat <+: u)
    (hund : ∀ x ∈ u, nonDelim x = true)
    (hB1 : B.takeWhile nonDelim = []) (hB2 : B.dropWhile nonDelim = B) :
    tagL t (tagURL t u ++ B) = tagURL t u ++ tagL t B := by
  rcases tagURL_append t u ht with ⟨ext, hext, hextnd⟩
  have hwnd : ∀ x ∈ tagURL t u, nonDelim x = true := by
    rw [hext]
    intro x hx
    rcases List.mem_append.1 hx with hx | hx
    · exact hund x hx
    · exact hextnd x hx
  have hu_pre' : amazonPat <+: tagURL t u := by
    rw [hext]
    exact hu_pre.trans (List.prefix_append u ext)
  have hpre_whole : amazonPat.isPrefixOf (tagURL t u ++ B) = true :=
    List.isPrefixOf_iff_prefix.2
      (hu_pre'.trans (List.prefix_append (tagURL t u) B))
  rw [tagL_pos t hpre_whole]
  rcases takeWhile_append_all (tagURL t u) B hwnd with ⟨h1, h2⟩
  rw [h1, h2, hB1, hB2, List.append_nil, tagURL_idem]

/-- The output of `tagL` on the remainder after a URL is empty or headed by
a delimiter, so a second scan passes straight over the boundary. -/
theorem tagL_rest_shape (t : List Char) (s : List Char) :
    (tagL t (s.dropWhile nonDelim)).takeWhile nonDelim = [] ∧
      (tagL t (s.dropWhile nonDelim)).dropWhile nonDelim =
        tagL t (s.dropWhile nonDelim) := by
  rcases dropWhile_head_not nonDelim s with hnil | ⟨d, rtl, hdr, hpd⟩
  · rw [hnil, tagL_nil]
    simp
  · have hdelim : isDelim d = true := by
      simpa [nonDelim] using hpd
    rw [hdr, tagL_cons_delim t hdelim]
    have hndd : ¬ nonDelim d = true := by simp [hpd]
    rw [List.takeWhile_cons_of_neg hndd, List.dropWhile_cons_of_neg hndd]
    exact ⟨rfl, rfl⟩

/-- Idempotence of the affiliate tagger, for any tracking tag made of URL
characters. -/
theorem tagL_idem (t : List Char) (ht : ∀ c ∈ t, nonDelim c = true) :
    ∀ s : List Char, tagL t (tagL t s) = tagL t s
  | [] => by rw [tagL_nil, tagL_nil]
  | c :: cs => by
    by_cases h : amazonPat.isPrefixOf (c :: cs) = true
    · rw [tagL_cons_pos t h]
      have hPu : amazonPat <+: (c :: cs).takeWhile nonDelim :=
        prefix_takeWhile ( List.isPrefixOf_iff_prefix.1 h) amazonPat_nonDelim
      have hund : ∀ x ∈ (c :: cs).takeWhile nonDelim, nonDelim x = true :=
        fun x hx => List.mem_takeWhile_imp hx
      rcases tagL_rest_shape t (c :: cs) with ⟨hB1, hB2⟩
      rw [tagL_append_url t ht _ _ hPu hund hB1 hB2]
      rw [tagL_idem t ht ((c :: cs).dropWhile nonDelim)]
    · rw [tagL_cons_neg t h]
      have h2 : ¬ amazonPat.isPrefixOf (c :: tagL t cs) = true := by
        have hrefl := tagL_isPrefixOf t ht (c :: cs)
        rw [tagL_cons_neg t h] at hrefl
        rw [hrefl]
        exact h
      rw [tagL_cons_neg t h2, tagL_idem t ht cs]
termination_by s => s.length
decreasing_by
  · simp_wf
    have hc : c = 'h' := amazon_head h
    have hnd : nonDelim c = true := by rw [hc]; decide
    rw [List.dropWhile_cons_of_pos hnd]
    exact Nat.lt_succ_of_le (List.dropWhile_sublist _ |>.length_le)
  · simp_wf

/-- The tail-recursive scanner agrees with `tagL` (scan state, and collect
state with the collected reversed characters). -/
theorem tagAux_eq (t : List Char) :
    ∀ s : List Char,
      tagAux t s none = tagL t s ∧
      ∀ acc, tagAux t s (some acc) =
        tagURL t (acc.reverse ++ s.takeWhile nonDelim) ++
          tagL t (s.dropWhile nonDelim) := by
  intro s
  induction s with
  | nil =>
    constructor
    · rw [tagL_nil]; rfl
    · intro acc
      show tagURL t acc.reverse = _
      rw [List.takeWhile_nil, List.dropWhile_nil, tagL_nil,
        List.append_nil, List.append_nil]
  | cons c cs ih =>
    rcases ih with ⟨ih1, ih2⟩
    constructor
    · have hstep : tagAux t (c :: cs) none =
          if amazonPat.isPrefixOf (c :: cs) then tagAux t cs (some [c])
          else c :: tagAux t cs none := rfl
      by_cases h : amazonPat.isPrefixOf (c :: cs) = true
      · have hnd : nonDelim c = true := by
          rw [amazon_head h]; decide
        rw [hstep, if_pos h, ih2 [c], tagL_cons_pos t h,
          List.takeWhile_cons_of_pos hnd, List.dropWhile_cons_of_pos hnd]
        simp
      · rw [hstep, if_neg h, ih1, ← tagL_cons_neg t h]
    · intro acc
      have hstep : tagAux t (c :: cs) (some acc) =
          if isDelim c then tagURL t acc.reverse ++ (c :: tagAux t cs none)
          else tagAux t cs (some (c :: acc)) := rfl
      by_cases hd : isDelim c = true
      · have hnd : ¬ nonDelim c = true := by simp [nonDelim, hd]
        rw [hstep, if_pos hd, ih1, List.takeWhile_cons_of_neg hnd,
          List.dropWhile_cons_of_neg hnd, tagL_cons_delim t hd,
          List.append_nil]
      · have hnd : nonDelim c = true := by
          simp only [nonDelim, Bool.not_eq_true] at hd ⊢
          simp [Bool.not_eq_true', hd]
        rw [hstep, if_neg hd, ih2 (c :: acc),
          List.takeWhile_cons_of_pos hnd, List.dropWhile_cons_of_pos hnd]
        simp

theorem tagAux_eq_tagL (t s : List Char) : tagAux t s none = tagL t s :=
  (tagAux_eq t s).1

/-- C1: the affiliate-tagging transform (modelled from the spec, over the
repository's tracking tag) is idempotent on every HTML string, and every
marketplace link emitted by `create_affiliate_link` — the producer of all
marketplace links in the code — already carries the tag parameter, so a
tagging pass leaves it unchanged. -/
theorem c1_affiliate_tagging_idempotent :
    (∀ html : String,
        add_affiliate_tags (add_affiliate_tags html) = add_affiliate_tags html) ∧
    (∀ p ∈ all_products,
        add_affiliate_tags (create_affiliate_link AMAZON_AFFILIATE_TAG p) =
          create_affiliate_link AMAZON_AFFILIATE_TAG p) := by
  have ht : ∀ c ∈ AMAZON_AFFILIATE_TAG.data, nonDelim c = true := by decide
  constructor
  · intro html
    exact congrArg String.mk (tagL_idem _ ht html.data)
  · have hall : all_products.all (fun p =>
        tagAux AMAZON_AFFILIATE_TAG.data
            (create_affiliate_link AMAZON_AFFILIATE_TAG p).data none ==
          (create_affiliate_link AMAZON_AFFILIATE_TAG p).data) = true := by
      decide
    intro p hp
    have h1 := List.all_eq_true.1 hall p hp
    have h2 : tagL AMAZON_AFFILIATE_TAG.data
        (create_affiliate_link AMAZON_AFFILIATE_TAG p).data =
        (create_affiliate_link AMAZON_AFFILIATE_TAG p).data := by
      rw [← tagAux_eq_tagL]
      exact eq_of_beq h1
    show String.mk _ = _
    rw [h2]

/-- Witness for `c1_affiliate_tagging_idempotent`: a sample HTML string and
the first product of the database. -/
theorem c1_affiliate_tagging_idempotent_witness :
    add_affiliate_tags (add_affiliate_tags "<p>see https://www.amazon.com/dp/B077TGQZPX today</p>") =
        add_affiliate_tags "<p>see https://www.amazon.com/dp/B077TGQZPX today</p>" ∧
      add_affiliate_tags (create_affiliate_link AMAZON_AFFILIATE_TAG
          (Product.mk "CeraVe Foaming Facial Cleanser" "B077TGQZPX" "$12.99" "4.5" "cleanser")) =
        create_affiliate_link AMAZON_AFFILIATE_TAG
          (Product.mk "CeraVe Foaming Facial Cleanser" "B077TGQZPX" "$12.99" "4.5" "cleanser") :=
  ⟨c1_affiliate_tagging_idempotent.1 _,
   c1_affiliate_tagging_idempotent.2 _ (by decide)⟩

end GlowAI
